import Mathlib

/-!
# Verification of the account-mapping reconciliation engine

A shallow embedding of the account-mapping pipeline of `akahu_budget_mapping.py`
and the `account_mapper` module it drives.  The driving script
(`akahu_budget_mapping.py`) and `modules/config.py` are embedded from their
source; the `account_mapper` functions (`check_for_changes`,
`merge_and_update_mapping`, `match_accounts`, `remove_seq`) are modelled from
the specification, since their source file is not part of the sources under
review.  Python dictionaries are modelled as association lists with
first-occurrence lookup; provider snapshots map account ids to records, the
mapping document maps source account ids to mapping entries.
-/

/-- One provider account, as fetched from a snapshot provider.  Fields follow
the spec data model: `id` is the association-list key, so a record carries
`name`, `balance`, an account classification `kind` (the spec's `type` field)
and the optional provider ordering token `seq`. -/
structure AccountRecord where
  name : String
  balance : Int
  kind : String
  seq : Option Nat := none
deriving DecidableEq

/-- A provider snapshot: a dictionary from provider account id to record. -/
abbrev Snapshot : Type := List (String × AccountRecord)

/-- Dictionary lookup: the value at the first occurrence of a key. -/
def lookupKV {β : Type} (id : String) : List (String × β) → Option β
  | [] => none
  | p :: rest => if p.1 = id then some p.2 else lookupKV id rest

/-- Dictionary update: replace the value at an existing key, preserving
position (Python `d[k] = v` for a present key). -/
def replaceKV {β : Type} (id : String) (v : β) : List (String × β) → List (String × β)
  | [] => []
  | p :: rest => if p.1 = id then (id, v) :: rest else p :: replaceKV id v rest

/-- Erase the volatile provider ordering token from a record. -/
def stripSeq (r : AccountRecord) : AccountRecord :=
  { r with seq := none }

/-- Modelled from the spec: the per-provider comparison performed by
`account_mapper.check_for_changes` (whose source file is missing from the
sources under review).  Two snapshots match — no sync-relevant change — iff
they contain the same set of account ids and, for every id, all fields except
the ordering token are equal. -/
def accountsMatch (S S' : Snapshot) : Bool :=
  S.all (fun p =>
    decide (Option.map stripSeq (lookupKV p.1 S) = Option.map stripSeq (lookupKV p.1 S')))
  && S'.all (fun p => (lookupKV p.1 S).isSome)

/-- Modelled from the spec: `account_mapper.check_for_changes` compares the
previous and latest snapshot of each of the three providers and returns one
boolean per provider (`true` = no change detected). -/
def check_for_changes (existingAkahu latestAkahu existingActual latestActual
    existingYnab latestYnab : Snapshot) : Bool × Bool × Bool :=
  (accountsMatch existingAkahu latestAkahu,
   accountsMatch existingActual latestActual,
   accountsMatch existingYnab latestYnab)

/-- One entry of the persisted mapping document, keyed by source (Akahu)
account id.  Fields follow the spec data model plus the fields the sync code
reads (`akahu_id`, `akahu_name`, `akahu_balance`): cached source display
fields, and per target ledger an account id, the budget/ledger container id,
and the last-sync timestamp (written by the sync step only). -/
structure MappingEntry where
  akahu_id : String
  akahu_name : String
  akahu_balance : Int := 0
  ynab_account_id : Option String := none
  ynab_budget_id : Option String := none
  ynab_synced_datetime : Option String := none
  actual_account_id : Option String := none
  actual_budget_id : Option String := none
  actual_synced_datetime : Option String := none
deriving DecidableEq

/-- The mapping document's `mapping` key: source account id → entry. -/
abbrev Mapping : Type := List (String × MappingEntry)

/-- The two target ledgers the script can sync to. -/
inductive Ledger
  | ynab
  | actual
deriving DecidableEq

/-- The `{ledger}_account_id` link of an entry. -/
def ledgerAccountId : Ledger → MappingEntry → Option String
  | .ynab, e => e.ynab_account_id
  | .actual, e => e.actual_account_id

/-- The `{ledger}_budget_id` field of an entry. -/
def ledgerBudgetId : Ledger → MappingEntry → Option String
  | .ynab, e => e.ynab_budget_id
  | .actual, e => e.actual_budget_id

/-- Write a confirmed `{ledger}_account_id` / `{ledger}_budget_id` pair into an
entry. -/
def setLedgerLink (l : Ledger) (targetId budgetId : String) (e : MappingEntry) : MappingEntry :=
  match l with
  | .ynab => { e with ynab_account_id := some targetId, ynab_budget_id := some budgetId }
  | .actual => { e with actual_account_id := some targetId, actual_budget_id := some budgetId }

/-- Modelled from the spec: the per-entry step of
`account_mapper.merge_and_update_mapping` (source file missing from the
sources under review).  For a source id present in both the previous and the
latest source snapshot, the cached display fields (name, balance) are
refreshed from the latest snapshot; identifier links are never touched. -/
def refreshEntry (latestAkahu prevAkahu : Snapshot) (e : MappingEntry) : MappingEntry :=
  if (lookupKV e.akahu_id prevAkahu).isSome then
    match lookupKV e.akahu_id latestAkahu with
    | some r => { e with akahu_name := r.name, akahu_balance := r.balance }
    | none => e
  else e

/-- Case-insensitive display-name order on snapshot items, the key
`lambda x: x[1]['name'].lower()` used at `akahu_budget_mapping.py:128`. -/
def nameLE (a b : String × AccountRecord) : Prop :=
  a.2.name.toLower ≤ b.2.name.toLower

instance : DecidableRel nameLE :=
  fun a b => inferInstanceAs (Decidable (a.2.name.toLower ≤ b.2.name.toLower))

instance : IsTotal (String × AccountRecord) nameLE :=
  ⟨fun a b => le_total a.2.name.toLower b.2.name.toLower⟩

instance : IsTrans (String × AccountRecord) nameLE :=
  ⟨fun _ _ _ hab hbc => le_trans hab hbc⟩

/-- A stable sort of a snapshot by lowercased display name — the meaning of
`dict(sorted(akahu_accounts.items(), key=lambda x: x[1]['name'].lower()))`
(Python's `sorted` is also a stable sort with respect to the same key). -/
def sortByNameCI (S : Snapshot) : Snapshot :=
  List.insertionSort nameLE S

/-- The result tuple of `merge_and_update_mapping`. -/
structure MergeResult where
  mapping : Mapping
  akahu_accounts : Snapshot
  actual_accounts : Snapshot
  ynab_accounts : Snapshot

/-- Modelled from the spec: `account_mapper.merge_and_update_mapping` (source
file missing from the sources under review).  Per the spec algorithm: ids only
in the latest snapshot get no mapping action (they become unmapped candidates
for the matcher); entries for ids only in the previous snapshot are retained
untouched, never auto-removed; for ids in both, cached display fields are
refreshed without touching links.  The output account dictionaries are the
full latest snapshots, with the source accounts sorted case-insensitively by
display name. -/
def merge_and_update_mapping (existingMapping : Mapping)
    (latestAkahu latestActual latestYnab : Snapshot)
    (existingAkahu existingActual existingYnab : Snapshot) : MergeResult :=
  { mapping := existingMapping.map (fun p => (p.1, refreshEntry latestAkahu existingAkahu p.2))
    akahu_accounts := sortByNameCI latestAkahu
    actual_accounts := latestActual
    ynab_accounts := latestYnab }

/-- The outcome of the interactive confirmation boundary for one source
account, per the spec's decision-function design note: a confirmed target
account id, an explicit skip, or an explicit "never map" signal.  Per the
spec's matcher state machine, both skip and "never map" leave the entry
without a link for this run. -/
inductive Decision
  | confirm (targetId : String)
  | skip
  | never
deriving DecidableEq

/-- Whether a decision is a confirmation. -/
def Decision.isConfirm : Decision → Bool
  | .confirm _ => true
  | _ => false

/-- Whether a source account still lacks a `{ledger}_account_id` link in the
mapping (no entry at all also counts as lacking). -/
def entryLacksLink (l : Ledger) (m : Mapping) (id : String) : Bool :=
  match lookupKV id m with
  | some e => (ledgerAccountId l e).isNone
  | none => true

/-- Record a confirmed match: update the existing entry (refreshing the cached
source display name) or create a new entry, and write the ledger link plus the
currently configured budget id. -/
def confirmEntry (l : Ledger) (budgetId : String) (srcId srcName : String)
    (srcBalance : Int) (targetId : String) (m : Mapping) : Mapping :=
  match lookupKV srcId m with
  | some e =>
      replaceKV srcId (setLedgerLink l targetId budgetId
        { e with akahu_name := srcName }) m
  | none =>
      m ++ [(srcId, setLedgerLink l targetId budgetId
        { akahu_id := srcId, akahu_name := srcName, akahu_balance := srcBalance })]

/-- Modelled from the spec: the main loop of `account_mapper.match_accounts`
(source file missing from the sources under review).  It walks the source
accounts in order; every account lacking a `{ledger}_account_id` link is put
to the confirmation boundary `f`; a confirmation writes the link and budget
id, a skip or "never map" answer leaves the mapping unchanged.  Returns the
updated mapping together with the list of account ids that were put to the
boundary, in order. -/
def matchRun (l : Ledger) (budgetId : String) (f : String → Decision)
    (m : Mapping) : List (String × AccountRecord) → Mapping × List String
  | [] => (m, [])
  | p :: rest =>
    if entryLacksLink l m p.1 then
      let m' := match f p.1 with
        | .confirm tid => confirmEntry l budgetId p.1 p.2.name p.2.balance tid m
        | _ => m
      let r := matchRun l budgetId f m' rest
      (r.1, p.1 :: r.2)
    else matchRun l budgetId f m rest

/-- Modelled from the spec: `account_mapper.match_accounts`.  The target
snapshot is presented to the human (and feeds the optional suggestion) but has
no effect on the mapping beyond what the decision function `f` abstracts. -/
def match_accounts (m : Mapping) (source : Snapshot) (_target : Snapshot)
    (l : Ledger) (budgetId : String) (f : String → Decision) : Mapping :=
  (matchRun l budgetId f m source).1

/-- The source account ids `match_accounts` puts to the confirmation
boundary, in order (one invocation per listed id). -/
def matchInvoked (m : Mapping) (source : Snapshot) (_target : Snapshot)
    (l : Ledger) (budgetId : String) (f : String → Decision) : List String :=
  (matchRun l budgetId f m source).2

/-- The persisted mapping document: the three account dictionaries plus the
mapping itself (`data_to_save` at `akahu_budget_mapping.py:156`). -/
structure MappingDocument where
  akahu_accounts : Snapshot
  actual_accounts : Snapshot
  ynab_accounts : Snapshot
  mapping : Mapping
deriving DecidableEq

/-- Strip the ordering token from every record of a snapshot. -/
def stripSnapshot (S : Snapshot) : Snapshot :=
  S.map (fun p => (p.1, stripSeq p.2))

/-- Modelled from the spec: `account_mapper.remove_seq` (source file missing
from the sources under review) strips the provider ordering token
(`sequence`/`seq`) from every record of the document before it is written;
nothing else changes. -/
def remove_seq (d : MappingDocument) : MappingDocument :=
  { akahu_accounts := stripSnapshot d.akahu_accounts
    actual_accounts := stripSnapshot d.actual_accounts
    ynab_accounts := stripSnapshot d.ynab_accounts
    mapping := d.mapping }

/-- The budget-id retrofit loop of `akahu_budget_mapping.py:106`: an entry
with a `ynab_account_id` but no `ynab_budget_id` receives the configured
`YNAB_BUDGET_ID`; an entry with an `actual_account_id` but no
`actual_budget_id` receives the configured `ACTUAL_SYNC_ID`. -/
def retrofitEntry (ynabBudgetId actualSyncId : String) (e : MappingEntry) : MappingEntry :=
  let e1 :=
    if e.ynab_account_id.isSome && e.ynab_budget_id.isNone then
      { e with ynab_budget_id := some ynabBudgetId }
    else e
  if e1.actual_account_id.isSome && e1.actual_budget_id.isNone then
    { e1 with actual_budget_id := some actualSyncId }
  else e1

/-- The whole retrofit pass over the loaded mapping
(`akahu_budget_mapping.py:106`). -/
def retrofitBudgetIds (ynabBudgetId actualSyncId : String) (m : Mapping) : Mapping :=
  m.map (fun p => (p.1, retrofitEntry ynabBudgetId actualSyncId p.2))

/-- What `main` produced: which ledgers `match_accounts` was called for, the
in-memory document assembled at the end of the run, and the document handed to
`save_mapping`. -/
structure MainResult where
  matchedLedgers : List Ledger
  document : MappingDocument
  saved : MappingDocument

/-- The body of `main` in `akahu_budget_mapping.py` after the provider
fetches (lines 101–164): retrofit budget ids into the loaded mapping, merge
with the latest snapshots, sort the source accounts case-insensitively by
name, detect changes, run the interactive matcher per enabled ledger only if
some provider changed, and hand the document to `save_mapping` with the
ordering tokens stripped.  The fetched and previously persisted snapshots and
the two ledgers' decision functions are parameters, fetching itself being an
external collaborator. -/
def mainCore (syncYnab syncAb : Bool) (ynabBudgetId actualSyncId : String)
    (latestAkahu latestActual latestYnab : Snapshot)
    (existingAkahu existingActual existingYnab : Snapshot)
    (existingMapping : Mapping)
    (fYnab fActual : String → Decision) : MainResult :=
  let retrofitted := retrofitBudgetIds ynabBudgetId actualSyncId existingMapping
  let merged := merge_and_update_mapping retrofitted latestAkahu latestActual latestYnab
    existingAkahu existingActual existingYnab
  let akahuAccounts := sortByNameCI merged.akahu_accounts
  let changes := check_for_changes existingAkahu latestAkahu existingActual latestActual
    existingYnab latestYnab
  if changes.1 && changes.2.1 && changes.2.2 then
    let doc : MappingDocument :=
      { akahu_accounts := akahuAccounts
        actual_accounts := merged.actual_accounts
        ynab_accounts := merged.ynab_accounts
        mapping := merged.mapping }
    { matchedLedgers := [], document := doc, saved := remove_seq doc }
  else
    let m1 :=
      if syncYnab then
        match_accounts merged.mapping akahuAccounts merged.ynab_accounts .ynab ynabBudgetId fYnab
      else merged.mapping
    let m2 :=
      if syncAb then
        match_accounts m1 akahuAccounts merged.actual_accounts .actual actualSyncId fActual
      else m1
    let doc : MappingDocument :=
      { akahu_accounts := akahuAccounts
        actual_accounts := merged.actual_accounts
        ynab_accounts := merged.ynab_accounts
        mapping := m2 }
    { matchedLedgers :=
        (if syncYnab then [Ledger.ynab] else []) ++ (if syncAb then [Ledger.actual] else [])
      document := doc
      saved := remove_seq doc }

/-- The environment variables `akahu_budget_mapping.py` requires
(lines 42–53). -/
def required_envs : List String :=
  ["ACTUAL_SERVER_URL", "ACTUAL_PASSWORD", "ACTUAL_ENCRYPTION_KEY", "ACTUAL_SYNC_ID",
   "AKAHU_USER_TOKEN", "AKAHU_APP_TOKEN", "AKAHU_PUBLIC_KEY", "OPENAI_API_KEY",
   "YNAB_BEARER_TOKEN", "YNAB_BUDGET_ID"]

/-- The flag idiom `os.environ.get(key, 'False') == 'True'`
(`akahu_budget_mapping.py:55`). -/
def envFlag (env : String → Option String) (key : String) : Bool :=
  ((env key).getD "False") == "True"

/-- The two fatal startup errors of the script: the sync-flag guard at
`akahu_budget_mapping.py:58` and the required-variable validation at
line 71 (both raise `EnvironmentError`). -/
inductive StartupError
  | syncFlagsOff
  | missingEnv (key : String)
deriving DecidableEq

/-- The module-level startup checks of `akahu_budget_mapping.py` (lines
55–74), in source order: first the sync-flag guard, then the required
environment variables; on success the two sync flags are available. -/
def startupChecks (env : String → Option String) : Except StartupError (Bool × Bool) :=
  let sy := envFlag env "SYNC_TO_YNAB"
  let sa := envFlag env "SYNC_TO_AB"
  if !sy && !sa then
    .error .syncFlagsOff
  else
    match required_envs.find? (fun k => (env k).isNone) with
    | some k => .error (.missingEnv k)
    | none => .ok (sy, sa)

/-- The whole script: the startup checks guard everything; only when they pass
does `main` (here `mainCore`, with the fetched snapshots as parameters) run,
fetch, merge, match and save. -/
def runProgram (env : String → Option String)
    (latestAkahu latestActual latestYnab : Snapshot)
    (existingAkahu existingActual existingYnab : Snapshot)
    (existingMapping : Mapping)
    (fYnab fActual : String → Decision) : Except StartupError MainResult :=
  match startupChecks env with
  | .error e => .error e
  | .ok flags =>
      .ok (mainCore flags.1 flags.2
        ((env "YNAB_BUDGET_ID").getD "") ((env "ACTUAL_SYNC_ID").getD "")
        latestAkahu latestActual latestYnab
        existingAkahu existingActual existingYnab existingMapping fYnab fActual)

/-! ### Concrete sample data for witnesses -/

def sampleRecSeqA : AccountRecord :=
  { name := "Checking", balance := 100, kind := "bank", seq := some 1 }

def sampleRecSeqB : AccountRecord :=
  { name := "Checking", balance := 100, kind := "bank", seq := some 7 }

def snapSeqA : Snapshot := [("ak1", sampleRecSeqA)]

def snapSeqB : Snapshot := [("ak1", sampleRecSeqB)]

def sampleRecSavings : AccountRecord :=
  { name := "Savings", balance := 250, kind := "bank", seq := some 2 }

def sampleSource : Snapshot := [("ak1", sampleRecSeqA), ("ak2", sampleRecSavings)]

def sampleEntryUnmapped : MappingEntry :=
  { akahu_id := "ak1", akahu_name := "Checking", akahu_balance := 100 }

def sampleMapping : Mapping := [("ak1", sampleEntryUnmapped)]

def sampleEntryYnabNoBudget : MappingEntry :=
  { akahu_id := "ak1", akahu_name := "Checking", ynab_account_id := some "yn1" }

def sampleMappingNoBudget : Mapping := [("ak1", sampleEntryYnabNoBudget)]

def sampleEntryMapped : MappingEntry :=
  { akahu_id := "ak1", akahu_name := "Checking",
    ynab_account_id := some "yn1", ynab_budget_id := some "bud1" }

def sampleMappingMapped : Mapping := [("ak1", sampleEntryMapped)]

def sampleDecideSkip : String → Decision := fun _ => .skip

def sampleDecideConfirm : String → Decision := fun _ => .confirm "yn1"

def sampleDoc : MappingDocument :=
  { akahu_accounts := snapSeqA, actual_accounts := [], ynab_accounts := [],
    mapping := sampleMapping }

def sampleEnvOff : String → Option String := fun _ => none

def sampleEnvOn : String → Option String := fun k =>
  if k = "SYNC_TO_YNAB" then some "True" else some "x"

/-! ## Association-list lemmas -/

theorem lookupKV_isSome_of_mem {β : Type} {k : String} {v : β} :
    ∀ {L : List (String × β)}, (k, v) ∈ L → (lookupKV k L).isSome
  | p :: rest, h => by
    rcases List.mem_cons.mp h with h' | h'
    · simp [lookupKV, ← h']
    · by_cases hk : p.1 = k
      · simp [lookupKV, hk]
      · simpa [lookupKV, hk] using lookupKV_isSome_of_mem h'

theorem mem_of_lookupKV_eq_some {β : Type} {k : String} {v : β} :
    ∀ {L : List (String × β)}, lookupKV k L = some v → (k, v) ∈ L
  | p :: rest, h => by
    by_cases hk : p.1 = k
    · simp only [lookupKV, hk, if_pos] at h
      cases h
      exact hk ▸ List.mem_cons_self _ _
    · simp only [lookupKV, hk, if_neg, ite_false] at h
      exact List.mem_cons_of_mem _ (mem_of_lookupKV_eq_some h)

theorem lookupKV_map {β γ : Type} (g : β → γ) (k : String) :
    ∀ L : List (String × β),
      lookupKV k (L.map (fun p => (p.1, g p.2))) = Option.map g (lookupKV k L)
  | [] => rfl
  | p :: rest => by
    by_cases hk : p.1 = k <;> simp [lookupKV, hk, lookupKV_map g k rest]

/-! ## Change detection (claim C1) -/

theorem accountsMatch_iff (S S' : Snapshot) :
    accountsMatch S S' = true ↔
      ∀ id, Option.map stripSeq (lookupKV id S) = Option.map stripSeq (lookupKV id S') := by
  constructor
  · intro h id
    rw [accountsMatch, Bool.and_eq_true, List.all_eq_true, List.all_eq_true] at h
    obtain ⟨h1, h2⟩ := h
    cases hS : lookupKV id S with
    | some r =>
      have hmem := mem_of_lookupKV_eq_some hS
      have := h1 (id, r) hmem
      rw [decide_eq_true_eq] at this
      rw [hS] at this
      exact this
    | none =>
      cases hS' : lookupKV id S' with
      | some r' =>
        have hmem := mem_of_lookupKV_eq_some hS'
        have := h2 (id, r') hmem
        rw [hS] at this
        simp at this
      | none => rfl
  · intro h
    rw [accountsMatch, Bool.and_eq_true, List.all_eq_true, List.all_eq_true]
    refine ⟨fun p _ => decide_eq_true (h p.1), fun p hp => ?_⟩
    have hs' : (lookupKV p.1 S').isSome := lookupKV_isSome_of_mem hp
    have := h p.1
    cases hS : lookupKV p.1 S with
    | some r => rfl
    | none =>
      rw [hS] at this
      cases hS' : lookupKV p.1 S' with
      | some r' => rw [hS'] at this; simp at this
      | none => rw [hS'] at hs'; simp at hs'

/-- C1: the change detector reports no change for a pair of snapshots iff they
contain the same set of account ids and, for every id, every field except the
ordering token `seq` is equal; in particular it reports no change for
`(S, S)`, and snapshots differing only in ordering tokens are reported
unchanged. -/
theorem change_detector_correct :
    (∀ S S' : Snapshot, accountsMatch S S' = true ↔
        ((∀ id, (lookupKV id S).isSome ↔ (lookupKV id S').isSome)
          ∧ ∀ id, Option.map stripSeq (lookupKV id S) = Option.map stripSeq (lookupKV id S')))
    ∧ (∀ S : Snapshot, accountsMatch S S = true)
    ∧ (∀ S S' : Snapshot,
        (∀ id, Option.map stripSeq (lookupKV id S) = Option.map stripSeq (lookupKV id S')) →
        accountsMatch S S' = true) := by
  have hsome : ∀ S S' : Snapshot,
      (∀ id, Option.map stripSeq (lookupKV id S) = Option.map stripSeq (lookupKV id S')) →
      ∀ id, (lookupKV id S).isSome ↔ (lookupKV id S').isSome := by
    intro S S' h id
    have := h id
    cases hS : lookupKV id S <;> cases hS' : lookupKV id S' <;>
      rw [hS, hS'] at this <;> simp_all
  refine ⟨fun S S' => ?_, fun S => ?_, fun S S' h => (accountsMatch_iff S S').mpr h⟩
  · rw [accountsMatch_iff]
    exact ⟨fun h => ⟨hsome S S' h, h⟩, fun h => h.2⟩
  · exact (accountsMatch_iff S S).mpr (fun _ => rfl)

/-- C1 witness: two concrete one-account snapshots that differ only in the
ordering token are reported unchanged. -/
theorem change_detector_correct_witness : accountsMatch snapSeqA snapSeqB = true := by
  refine change_detector_correct.2.2 snapSeqA snapSeqB (fun id => ?_)
  by_cases h : ("ak1" : String) = id <;>
    simp [snapSeqA, snapSeqB, lookupKV, h, stripSeq, sampleRecSeqA, sampleRecSeqB]

/-! ## More association-list lemmas -/

theorem lookupKV_replaceKV_self {β : Type} {k : String} {v : β} :
    ∀ {L : List (String × β)}, (lookupKV k L).isSome →
      lookupKV k (replaceKV k v L) = some v
  | p :: rest, h => by
    by_cases hk : p.1 = k
    · simp [replaceKV, lookupKV, hk]
    · simp only [lookupKV, hk, ite_false, if_neg] at h
      simp [replaceKV, lookupKV, hk, lookupKV_replaceKV_self h]

theorem lookupKV_replaceKV_ne {β : Type} {k k' : String} {v : β} (hne : k' ≠ k) :
    ∀ L : List (String × β), lookupKV k' (replaceKV k v L) = lookupKV k' L
  | [] => rfl
  | p :: rest => by
    by_cases hk : p.1 = k
    · simp [replaceKV, lookupKV, hk, Ne.symm hne, hk ▸ Ne.symm hne]
    · simp [replaceKV, lookupKV, hk, lookupKV_replaceKV_ne hne rest]

theorem lookupKV_append {β : Type} (k : String) :
    ∀ L L' : List (String × β),
      lookupKV k (L ++ L') =
        match lookupKV k L with
        | some v => some v
        | none => lookupKV k L'
  | [], L' => rfl
  | p :: rest, L' => by
    by_cases hk : p.1 = k <;> simp [lookupKV, hk, lookupKV_append k rest L']

/-! ## Merge lemmas -/

theorem refreshEntry_akahu_id (lA pA : Snapshot) (e : MappingEntry) :
    (refreshEntry lA pA e).akahu_id = e.akahu_id := by
  unfold refreshEntry
  split
  · split <;> rfl
  · rfl

theorem refreshEntry_links (lA pA : Snapshot) (e : MappingEntry) :
    (refreshEntry lA pA e).ynab_account_id = e.ynab_account_id
    ∧ (refreshEntry lA pA e).ynab_budget_id = e.ynab_budget_id
    ∧ (refreshEntry lA pA e).actual_account_id = e.actual_account_id
    ∧ (refreshEntry lA pA e).actual_budget_id = e.actual_budget_id := by
  unfold refreshEntry
  split
  · split <;> simp
  · simp

theorem refreshEntry_idem (lA pA : Snapshot) (e : MappingEntry) :
    refreshEntry lA pA (refreshEntry lA pA e) = refreshEntry lA pA e := by
  unfold refreshEntry
  by_cases hprev : (lookupKV e.akahu_id pA).isSome
  · cases hl : lookupKV e.akahu_id lA with
    | some r => simp [hprev, hl]
    | none => simp [hprev, hl]
  · simp [hprev]

/-! ## Matcher lemmas -/

theorem ledgerAccountId_setLedgerLink_self (l : Ledger) (t b : String) (e : MappingEntry) :
    ledgerAccountId l (setLedgerLink l t b e) = some t := by
  cases l <;> rfl

theorem ledgerAccountId_setLedgerLink_ne {l l' : Ledger} (hne : l' ≠ l)
    (t b : String) (e : MappingEntry) :
    ledgerAccountId l' (setLedgerLink l t b e) = ledgerAccountId l' e := by
  cases l <;> cases l' <;> first | rfl | exact absurd rfl hne

theorem ledgerAccountId_name_update (l : Ledger) (n : String) (e : MappingEntry) :
    ledgerAccountId l { e with akahu_name := n } = ledgerAccountId l e := by
  cases l <;> rfl

theorem entryLacksLink_false_iff (l : Ledger) (m : Mapping) (id : String) :
    entryLacksLink l m id = false ↔
      ∃ x, Option.map (ledgerAccountId l) (lookupKV id m) = some (some x) := by
  unfold entryLacksLink
  cases h : lookupKV id m with
  | some e =>
    cases he : ledgerAccountId l e with
    | some x => simp [he]
    | none => simp [he]
  | none => simp

theorem lookupKV_confirmEntry_ne {l : Ledger} {b s n : String} {bal : Int} {t : String}
    {m : Mapping} {id : String} (hne : id ≠ s) :
    lookupKV id (confirmEntry l b s n bal t m) = lookupKV id m := by
  unfold confirmEntry
  cases h : lookupKV s m with
  | some e => exact lookupKV_replaceKV_ne hne m
  | none =>
    rw [lookupKV_append]
    cases hid : lookupKV id m with
    | some v => rfl
    | none => simp [lookupKV, (Ne.symm hne : ¬s = id)]

theorem link_after_confirmEntry (l : Ledger) (b s n : String) (bal : Int) (t : String)
    (m : Mapping) :
    Option.map (ledgerAccountId l) (lookupKV s (confirmEntry l b s n bal t m)) =
      some (some t) := by
  unfold confirmEntry
  cases h : lookupKV s m with
  | some e =>
    have : (lookupKV s m).isSome := by simp [h]
    rw [lookupKV_replaceKV_self this]
    simp [ledgerAccountId_setLedgerLink_self]
  | none =>
    rw [lookupKV_append, h]
    simp [lookupKV, ledgerAccountId_setLedgerLink_self]

theorem link_preserved_confirmEntry {l l' : Ledger} {b s n : String} {bal : Int}
    {t : String} {m : Mapping} {id x : String}
    (hlacks : entryLacksLink l m s = true)
    (h : Option.map (ledgerAccountId l') (lookupKV id m) = some (some x)) :
    Option.map (ledgerAccountId l') (lookupKV id (confirmEntry l b s n bal t m)) =
      some (some x) := by
  by_cases hid : id = s
  · subst hid
    cases hm : lookupKV id m with
    | none => rw [hm] at h; simp at h
    | some e =>
      rw [hm] at h
      simp only [Option.map_some', Option.some.injEq] at h
      have hnone : ledgerAccountId l e = none := by
        unfold entryLacksLink at hlacks
        rw [hm] at hlacks
        simpa [Option.isNone_iff_eq_none] using hlacks
      have hll : l' ≠ l := by
        intro hEq
        rw [hEq, hnone] at h
        cases h
      simp only [confirmEntry, hm]
      rw [lookupKV_replaceKV_self (by simp [hm])]
      simp [ledgerAccountId_setLedgerLink_ne hll, ledgerAccountId_name_update, h]
  · rw [lookupKV_confirmEntry_ne hid]
    exact h

theorem matchRun_link_preserved (l : Ledger) (b : String) (f : String → Decision)
    {l' : Ledger} {id x : String} :
    ∀ (src : List (String × AccountRecord)) (m : Mapping),
      Option.map (ledgerAccountId l') (lookupKV id m) = some (some x) →
      Option.map (ledgerAccountId l') (lookupKV id (matchRun l b f m src).1) = some (some x)
  | [], _, h => h
  | p :: rest, m, h => by
    unfold matchRun
    by_cases hl : entryLacksLink l m p.1 = true
    · rw [if_pos hl]
      cases hf : f p.1 with
      | confirm tid =>
        simpa [hf] using
          matchRun_link_preserved l b f rest _ (link_preserved_confirmEntry hl h)
      | skip => simpa [hf] using matchRun_link_preserved l b f rest m h
      | never => simpa [hf] using matchRun_link_preserved l b f rest m h
    · rw [if_neg hl]
      exact matchRun_link_preserved l b f rest m h

/-- C2: no core operation removes a previously confirmed mapping entry or its
ledger link: merge keeps every mapping entry — in particular one whose source
account id is present in the previous snapshot but absent from the new one —
with all its ledger links and budget ids intact, and no matcher transition
removes a matched state (an existing `{ledger}_account_id` link survives any
`match_accounts` run unchanged). -/
theorem mapping_never_loses_links :
    (∀ (M : Mapping) (lA lAc lY pA pAc pY : Snapshot) (id : String),
        Option.map (fun e => (e.ynab_account_id, e.ynab_budget_id,
            e.actual_account_id, e.actual_budget_id))
          (lookupKV id (merge_and_update_mapping M lA lAc lY pA pAc pY).mapping)
          = Option.map (fun e => (e.ynab_account_id, e.ynab_budget_id,
              e.actual_account_id, e.actual_budget_id)) (lookupKV id M))
    ∧ (∀ (m : Mapping) (source target : Snapshot) (l : Ledger) (bid : String)
        (f : String → Decision) (l' : Ledger) (id x : String),
        Option.map (ledgerAccountId l') (lookupKV id m) = some (some x) →
        Option.map (ledgerAccountId l')
          (lookupKV id (match_accounts m source target l bid f)) = some (some x)) := by
  constructor
  · intro M lA lAc lY pA pAc pY id
    show Option.map _ (lookupKV id (M.map (fun p => (p.1, refreshEntry lA pA p.2)))) = _
    rw [lookupKV_map]
    cases h : lookupKV id M with
    | none => rfl
    | some e =>
      obtain ⟨h1, h2, h3, h4⟩ := refreshEntry_links lA pA e
      simp [h1, h2, h3, h4]
  · intro m source target l bid f l' id x h
    exact matchRun_link_preserved l bid f source m h

/-- C2 witness: a confirmed YNAB link in a concrete mapping survives a
`match_accounts` run in which the human skips every question. -/
theorem mapping_never_loses_links_witness :
    Option.map (ledgerAccountId .ynab)
      (lookupKV "ak1"
        (match_accounts sampleMappingMapped sampleSource [] .ynab "bud1" sampleDecideSkip))
      = some (some "yn1") :=
  mapping_never_loses_links.2 sampleMappingMapped sampleSource [] .ynab "bud1"
    sampleDecideSkip .ynab "ak1" "yn1" (by decide)

/-- C3: merge is idempotent — applying it a second time with identical
snapshots to the mapping produced by a first application returns that mapping
unchanged (and, keys being preserved, no duplicate entries appear). -/
theorem merge_idempotent (M : Mapping) (lA lAc lY pA pAc pY : Snapshot) :
    (merge_and_update_mapping (merge_and_update_mapping M lA lAc lY pA pAc pY).mapping
        lA lAc lY pA pAc pY).mapping
      = (merge_and_update_mapping M lA lAc lY pA pAc pY).mapping
    ∧ ((merge_and_update_mapping M lA lAc lY pA pAc pY).mapping).map Prod.fst
      = M.map Prod.fst := by
  constructor
  · show ((M.map _).map _) = M.map _
    rw [List.map_map]
    refine List.map_congr_left (fun p _ => ?_)
    simp [Function.comp, refreshEntry_idem]
  · show (M.map _).map Prod.fst = M.map Prod.fst
    rw [List.map_map]
    rfl

theorem entryLacksLink_congr {l : Ledger} {m1 m2 : Mapping} {id : String}
    (h : lookupKV id m1 = lookupKV id m2) :
    entryLacksLink l m1 id = entryLacksLink l m2 id := by
  unfold entryLacksLink
  rw [h]

theorem entryLacksLink_false_confirmEntry {l : Ledger} {b s n : String} {bal : Int}
    {t : String} {m : Mapping} {id : String}
    (h : entryLacksLink l m id = false) :
    entryLacksLink l (confirmEntry l b s n bal t m) id = false := by
  by_cases hid : id = s
  · subst hid
    rw [entryLacksLink_false_iff]
    exact ⟨t, link_after_confirmEntry l b id n bal t m⟩
  · rw [entryLacksLink_congr (lookupKV_confirmEntry_ne hid)]
    exact h

theorem entryLacksLink_false_matchRun (l : Ledger) (b : String) (f : String → Decision)
    {id : String} :
    ∀ (src : List (String × AccountRecord)) (m : Mapping),
      entryLacksLink l m id = false →
      entryLacksLink l (matchRun l b f m src).1 id = false
  | [], _, h => h
  | p :: rest, m, h => by
    unfold matchRun
    by_cases hl : entryLacksLink l m p.1 = true
    · rw [if_pos hl]
      cases hf : f p.1 with
      | confirm tid =>
        simpa [hf] using
          entryLacksLink_false_matchRun l b f rest _ (entryLacksLink_false_confirmEntry h)
      | skip => simpa [hf] using entryLacksLink_false_matchRun l b f rest m h
      | never => simpa [hf] using entryLacksLink_false_matchRun l b f rest m h
    · rw [if_neg hl]
      exact entryLacksLink_false_matchRun l b f rest m h

theorem matchRun_invoked_subset (l : Ledger) (b : String) (f : String → Decision) :
    ∀ (src : List (String × AccountRecord)) (m : Mapping) {a : String},
      a ∈ (matchRun l b f m src).2 → a ∈ src.map Prod.fst
  | p :: rest, m, a, h => by
    unfold matchRun at h
    by_cases hl : entryLacksLink l m p.1 = true
    · rw [if_pos hl] at h
      simp only [List.mem_cons] at h
      rcases h with h | h
      · simp [h]
      · exact List.mem_cons_of_mem _ (matchRun_invoked_subset l b f rest _ h)
    · rw [if_neg hl] at h
      exact List.mem_cons_of_mem _ (matchRun_invoked_subset l b f rest m h)

theorem matchRun_invoked_length (l : Ledger) (b : String) (f : String → Decision) :
    ∀ (src : List (String × AccountRecord)) (m : Mapping),
      (matchRun l b f m src).2.length
        ≤ (src.filter (fun p => entryLacksLink l m p.1)).length
  | [], _ => le_refl _
  | p :: rest, m => by
    unfold matchRun
    by_cases hl : entryLacksLink l m p.1 = true
    · rw [if_pos hl]
      cases hf : f p.1 with
      | confirm tid =>
        have hmono : ∀ q : String × AccountRecord,
            entryLacksLink l (confirmEntry l b p.1 p.2.name p.2.balance tid m) q.1 = true →
            entryLacksLink l m q.1 = true := by
          intro q hq
          by_contra hq'
          rw [Bool.not_eq_true] at hq'
          rw [entryLacksLink_false_confirmEntry hq'] at hq
          cases hq
        have h1 := matchRun_invoked_length l b f rest
          (confirmEntry l b p.1 p.2.name p.2.balance tid m)
        have h2 := (List.monotone_filter_right rest hmono).length_le
        simp only [hf, List.filter_cons, hl, if_true, List.length_cons]
        exact Nat.succ_le_succ (le_trans h1 h2)
      | skip =>
        simp only [hf, List.filter_cons, hl, if_true, List.length_cons]
        exact Nat.succ_le_succ (matchRun_invoked_length l b f rest m)
      | never =>
        simp only [hf, List.filter_cons, hl, if_true, List.length_cons]
        exact Nat.succ_le_succ (matchRun_invoked_length l b f rest m)
    · rw [if_neg hl]
      rw [Bool.not_eq_true] at hl
      simp only [List.filter_cons, hl, Bool.false_eq_true, if_false]
      exact matchRun_invoked_length l b f rest m

theorem matchRun_invoked_nodup (l : Ledger) (b : String) (f : String → Decision) :
    ∀ (src : List (String × AccountRecord)) (m : Mapping),
      (src.map Prod.fst).Nodup → (matchRun l b f m src).2.Nodup
  | [], _, _ => List.nodup_nil
  | p :: rest, m, hnd => by
    rw [List.map_cons, List.nodup_cons] at hnd
    unfold matchRun
    by_cases hl : entryLacksLink l m p.1 = true
    · rw [if_pos hl]
      refine List.Nodup.cons (fun hmem => ?_) (matchRun_invoked_nodup l b f rest _ hnd.2)
      exact hnd.1 (matchRun_invoked_subset l b f rest _ hmem)
    · rw [if_neg hl]
      exact matchRun_invoked_nodup l b f rest m hnd.2

theorem matchRun_complete (l : Ledger) (b : String) (f : String → Decision) :
    ∀ (src : List (String × AccountRecord)) (m : Mapping),
      (∀ a ∈ (matchRun l b f m src).2, (f a).isConfirm = true) →
      ∀ p ∈ src, entryLacksLink l (matchRun l b f m src).1 p.1 = false
  | q :: rest, m, hconf, p, hp => by
    unfold matchRun at hconf ⊢
    by_cases hl : entryLacksLink l m q.1 = true
    · rw [if_pos hl] at hconf ⊢
      have hq := hconf q.1 (List.mem_cons_self _ _)
      cases hf : f q.1 with
      | confirm tid =>
        rw [hf] at hconf
        rcases List.mem_cons.mp hp with hpq | hp'
        · subst hpq
          refine entryLacksLink_false_matchRun l b f rest _ ?_
          rw [entryLacksLink_false_iff]
          exact ⟨tid, link_after_confirmEntry l b p.1 p.2.name p.2.balance tid m⟩
        · exact matchRun_complete l b f rest
            (confirmEntry l b q.1 q.2.name q.2.balance tid m)
            (fun a ha => hconf a (List.mem_cons_of_mem _ ha)) p hp'
      | skip =>
        rw [hf] at hq
        simp [Decision.isConfirm] at hq
      | never =>
        rw [hf] at hq
        simp [Decision.isConfirm] at hq
    · rw [if_neg hl] at hconf ⊢
      rcases List.mem_cons.mp hp with hpq | hp'
      · subst hpq
        rw [Bool.not_eq_true] at hl
        exact entryLacksLink_false_matchRun l b f rest m hl
      · exact matchRun_complete l b f rest m hconf p hp'

/-- C4: for a mapping with N source accounts lacking a `{ledger}_account_id`
link, `match_accounts` puts at most N questions to the confirmation boundary —
at most one per unmapped account — and when every answer is a confirmation, no
source account for that ledger remains without a link afterwards. -/
theorem match_terminates (m : Mapping) (source target : Snapshot) (l : Ledger)
    (b : String) (f : String → Decision)
    (hnd : (source.map Prod.fst).Nodup) :
    (matchInvoked m source target l b f).Nodup
    ∧ (matchInvoked m source target l b f).length
        ≤ (source.filter (fun p => entryLacksLink l m p.1)).length
    ∧ ((∀ a ∈ matchInvoked m source target l b f, (f a).isConfirm = true) →
        ∀ p ∈ source, entryLacksLink l (match_accounts m source target l b f) p.1 = false) :=
  ⟨matchRun_invoked_nodup l b f source m hnd,
   matchRun_invoked_length l b f source m,
   fun hconf p hp => matchRun_complete l b f source m hconf p hp⟩

/-- C4 witness: with a concrete two-account source snapshot and a boundary
that always confirms, the previously unmapped account `ak2` ends up linked. -/
theorem match_terminates_witness :
    entryLacksLink .ynab
      (match_accounts sampleMapping sampleSource [] .ynab "bud1" sampleDecideConfirm) "ak2"
      = false :=
  (match_terminates sampleMapping sampleSource [] .ynab "bud1" sampleDecideConfirm
      (by decide)).2.2 (fun _ _ => rfl) ("ak2", sampleRecSavings) (by decide)

theorem lookupKV_matchRun_of_skip (l : Ledger) (b : String) (f : String → Decision)
    {a : String} (ha : f a = .skip) :
    ∀ (src : List (String × AccountRecord)) (m : Mapping),
      lookupKV a (matchRun l b f m src).1 = lookupKV a m
  | [], _ => rfl
  | p :: rest, m => by
    unfold matchRun
    by_cases hl : entryLacksLink l m p.1 = true
    · rw [if_pos hl]
      cases hf : f p.1 with
      | confirm tid =>
        have hpa : a ≠ p.1 := fun h => by rw [h, hf] at ha; cases ha
        simp only [hf]
        rw [lookupKV_matchRun_of_skip l b f ha rest _]
        exact lookupKV_confirmEntry_ne hpa
      | skip => simpa [hf] using lookupKV_matchRun_of_skip l b f ha rest m
      | never => simpa [hf] using lookupKV_matchRun_of_skip l b f ha rest m
    · rw [if_neg hl]
      exact lookupKV_matchRun_of_skip l b f ha rest m

theorem lacks_final_imp_not_confirm (l : Ledger) (b : String) (f : String → Decision) :
    ∀ (src : List (String × AccountRecord)) (m : Mapping) (p : String × AccountRecord),
      p ∈ src → entryLacksLink l (matchRun l b f m src).1 p.1 = true →
      (f p.1).isConfirm = false
  | q :: rest, m, p, hp, hlacks => by
    unfold matchRun at hlacks
    by_cases hl : entryLacksLink l m q.1 = true
    · rw [if_pos hl] at hlacks
      rcases List.mem_cons.mp hp with hpq | hp'
      · subst hpq
        cases hf : f p.1 with
        | confirm tid =>
          rw [hf] at hlacks
          simp only at hlacks
          have hfalse : entryLacksLink l
              (matchRun l b f (confirmEntry l b p.1 p.2.name p.2.balance tid m) rest).1 p.1
              = false := by
            refine entryLacksLink_false_matchRun l b f rest _ ?_
            rw [entryLacksLink_false_iff]
            exact ⟨tid, link_after_confirmEntry l b p.1 p.2.name p.2.balance tid m⟩
          rw [hfalse] at hlacks
          cases hlacks
        | skip => simp [hf, Decision.isConfirm]
        | never => simp [hf, Decision.isConfirm]
      · cases hf : f q.1 with
        | confirm tid =>
          rw [hf] at hlacks
          exact lacks_final_imp_not_confirm l b f rest _ p hp' hlacks
        | skip =>
          rw [hf] at hlacks
          exact lacks_final_imp_not_confirm l b f rest m p hp' hlacks
        | never =>
          rw [hf] at hlacks
          exact lacks_final_imp_not_confirm l b f rest m p hp' hlacks
    · rw [if_neg hl] at hlacks
      rcases List.mem_cons.mp hp with hpq | hp'
      · subst hpq
        rw [Bool.not_eq_true] at hl
        rw [entryLacksLink_false_matchRun l b f rest m hl] at hlacks
        cases hlacks
      · exact lacks_final_imp_not_confirm l b f rest m p hp' hlacks

theorem matchRun_stationary (l : Ledger) (b : String) (f : String → Decision) :
    ∀ (src : List (String × AccountRecord)) (m : Mapping),
      (∀ p ∈ src, entryLacksLink l m p.1 = true → (f p.1).isConfirm = false) →
      matchRun l b f m src
        = (m, (src.filter (fun p => entryLacksLink l m p.1)).map Prod.fst)
  | [], m, _ => rfl
  | p :: rest, m, h => by
    unfold matchRun
    by_cases hl : entryLacksLink l m p.1 = true
    · rw [if_pos hl]
      have hnc := h p (List.mem_cons_self _ _) hl
      cases hf : f p.1 with
      | confirm tid => rw [hf] at hnc; simp [Decision.isConfirm] at hnc
      | skip =>
        simp only [hf]
        rw [matchRun_stationary l b f rest m (fun q hq => h q (List.mem_cons_of_mem _ hq))]
        simp [List.filter_cons, hl]
      | never =>
        simp only [hf]
        rw [matchRun_stationary l b f rest m (fun q hq => h q (List.mem_cons_of_mem _ hq))]
        simp [List.filter_cons, hl]
    · rw [if_neg hl]
      rw [matchRun_stationary l b f rest m (fun q hq => h q (List.mem_cons_of_mem _ hq))]
      rw [Bool.not_eq_true] at hl
      simp [List.filter_cons, hl]

theorem invoked_skip_still_lacking (l : Ledger) (b : String) (f : String → Decision)
    {a : String} (ha : f a = .skip) :
    ∀ (src : List (String × AccountRecord)) (m : Mapping),
      a ∈ (matchRun l b f m src).2 →
      entryLacksLink l (matchRun l b f m src).1 a = true
  | p :: rest, m, hmem => by
    unfold matchRun at hmem ⊢
    by_cases hl : entryLacksLink l m p.1 = true
    · rw [if_pos hl] at hmem ⊢
      rcases List.mem_cons.mp hmem with hap | hmem'
      · subst hap
        rw [ha]
        have hcg := entryLacksLink_congr (l := l)
          (lookupKV_matchRun_of_skip l b f ha rest m)
        exact hcg.trans hl
      · exact invoked_skip_still_lacking l b f ha rest _ hmem'
    · rw [if_neg hl] at hmem ⊢
      exact invoked_skip_still_lacking l b f ha rest m hmem

/-- C5: when the confirmation boundary answers skip for a source account,
`match_accounts` leaves the mapping unchanged at that account (the ledger link
stays absent), a subsequent run over the same data offers the account again,
and re-running reproduces the same mapping — the same unmatched set, with no
confirmed link duplicated or changed. -/
theorem match_skip_semantics (m : Mapping) (source target : Snapshot) (l : Ledger)
    (b : String) (f : String → Decision) (a : String) (ha : f a = .skip) :
    lookupKV a (match_accounts m source target l b f) = lookupKV a m
    ∧ (a ∈ matchInvoked m source target l b f →
        a ∈ matchInvoked (match_accounts m source target l b f) source target l b f)
    ∧ match_accounts (match_accounts m source target l b f) source target l b f
        = match_accounts m source target l b f := by
  have hstat := matchRun_stationary l b f source (matchRun l b f m source).1
    (fun p hp hl => lacks_final_imp_not_confirm l b f source m p hp hl)
  refine ⟨lookupKV_matchRun_of_skip l b f ha source m, fun hmem => ?_, ?_⟩
  · have hlacks := invoked_skip_still_lacking l b f ha source m hmem
    have hkey := matchRun_invoked_subset l b f source m hmem
    unfold matchInvoked match_accounts
    rw [hstat]
    rcases List.mem_map.mp hkey with ⟨p, hp, hpa⟩
    refine List.mem_map.mpr ⟨p, List.mem_filter.mpr ⟨hp, ?_⟩, hpa⟩
    rw [hpa]
    exact hlacks
  · unfold match_accounts
    rw [hstat]

/-- C5 witness: with a boundary that always skips, a concrete run leaves the
one-entry mapping untouched at the offered account. -/
theorem match_skip_semantics_witness :
    lookupKV "ak1" (match_accounts sampleMapping sampleSource [] .ynab "bud1" sampleDecideSkip)
      = lookupKV "ak1" sampleMapping :=
  (match_skip_semantics sampleMapping sampleSource [] .ynab "bud1" sampleDecideSkip
    "ak1" rfl).1

/-! ## Budget-id backfill (claim C6) -/

theorem retrofitEntry_spec (y a : String) (e : MappingEntry) :
    (retrofitEntry y a e).akahu_id = e.akahu_id
    ∧ (retrofitEntry y a e).ynab_account_id = e.ynab_account_id
    ∧ (retrofitEntry y a e).actual_account_id = e.actual_account_id
    ∧ ((retrofitEntry y a e).ynab_account_id.isSome →
        (retrofitEntry y a e).ynab_budget_id.isSome)
    ∧ ((retrofitEntry y a e).actual_account_id.isSome →
        (retrofitEntry y a e).actual_budget_id.isSome)
    ∧ (e.ynab_account_id.isSome = true → e.ynab_budget_id = none →
        (retrofitEntry y a e).ynab_budget_id = some y)
    ∧ (e.actual_account_id.isSome = true → e.actual_budget_id = none →
        (retrofitEntry y a e).actual_budget_id = some a)
    ∧ (e.ynab_budget_id.isSome = true →
        (retrofitEntry y a e).ynab_budget_id = e.ynab_budget_id)
    ∧ (e.actual_budget_id.isSome = true →
        (retrofitEntry y a e).actual_budget_id = e.actual_budget_id) := by
  unfold retrofitEntry
  cases hya : e.ynab_account_id <;> cases hyb : e.ynab_budget_id <;>
    cases haa : e.actual_account_id <;> cases hab : e.actual_budget_id <;>
      simp [hya, hyb, haa, hab]

/-- C6: the caller's retrofit loop backfills the configured budget id into
every loaded entry that has a `{ledger}_account_id` but lacks the matching
`{ledger}_budget_id`, before merge/match use the mapping; afterwards no entry
has a ledger account id without a budget id, already-present budget ids are
kept, and the links themselves are untouched. -/
theorem budget_id_backfill (y a : String) (M : Mapping) :
    (∀ id e, lookupKV id (retrofitBudgetIds y a M) = some e →
        (e.ynab_account_id.isSome → e.ynab_budget_id.isSome)
        ∧ (e.actual_account_id.isSome → e.actual_budget_id.isSome))
    ∧ (∀ id e0, lookupKV id M = some e0 →
        lookupKV id (retrofitBudgetIds y a M) = some (retrofitEntry y a e0)
        ∧ (retrofitEntry y a e0).akahu_id = e0.akahu_id
        ∧ (retrofitEntry y a e0).ynab_account_id = e0.ynab_account_id
        ∧ (retrofitEntry y a e0).actual_account_id = e0.actual_account_id
        ∧ (e0.ynab_account_id.isSome = true → e0.ynab_budget_id = none →
            (retrofitEntry y a e0).ynab_budget_id = some y)
        ∧ (e0.actual_account_id.isSome = true → e0.actual_budget_id = none →
            (retrofitEntry y a e0).actual_budget_id = some a)
        ∧ (e0.ynab_budget_id.isSome = true →
            (retrofitEntry y a e0).ynab_budget_id = e0.ynab_budget_id)
        ∧ (e0.actual_budget_id.isSome = true →
            (retrofitEntry y a e0).actual_budget_id = e0.actual_budget_id)) := by
  constructor
  · intro id e he
    rw [retrofitBudgetIds, lookupKV_map] at he
    cases h0 : lookupKV id M with
    | none => rw [h0] at he; cases he
    | some e0 =>
      rw [h0] at he
      simp only [Option.map_some', Option.some.injEq] at he
      obtain ⟨-, -, -, h4, h5, -⟩ := retrofitEntry_spec y a e0
      exact he ▸ ⟨h4, h5⟩
  · intro id e0 h0
    have hl : lookupKV id (retrofitBudgetIds y a M) = some (retrofitEntry y a e0) := by
      rw [retrofitBudgetIds, lookupKV_map, h0]
      rfl
    obtain ⟨h1, h2, h3, _, _, h6, h7, h8, h9⟩ := retrofitEntry_spec y a e0
    exact ⟨hl, h1, h2, h3, h6, h7, h8, h9⟩

/-- C6 witness: a concrete entry with a YNAB account id and no YNAB budget id
receives the configured budget id. -/
theorem budget_id_backfill_witness :
    (retrofitEntry "bud1" "sync1" sampleEntryYnabNoBudget).ynab_budget_id = some "bud1" :=
  (((budget_id_backfill "bud1" "sync1" sampleMappingNoBudget).2 "ak1"
      sampleEntryYnabNoBudget rfl).2.2.2.2.1) rfl rfl

/-! ## Matcher gating (claim C7) -/

/-- C7: when the change detector reports no change for all three providers,
`main` never calls the interactive matcher; and `match_accounts` is called for
a ledger only when some provider changed and that ledger's sync flag is
enabled. -/
theorem matcher_gated (sy sa : Bool) (y a : String)
    (lA lAc lY pA pAc pY : Snapshot) (M : Mapping) (fY fA : String → Decision) :
    (check_for_changes pA lA pAc lAc pY lY = (true, true, true) →
      (mainCore sy sa y a lA lAc lY pA pAc pY M fY fA).matchedLedgers = [])
    ∧ (∀ l ∈ (mainCore sy sa y a lA lAc lY pA pAc pY M fY fA).matchedLedgers,
        check_for_changes pA lA pAc lAc pY lY ≠ (true, true, true)
        ∧ (l = Ledger.ynab → sy = true) ∧ (l = Ledger.actual → sa = true)) := by
  rcases hcc : check_for_changes pA lA pAc lAc pY lY with ⟨b1, b2, b3⟩
  constructor
  · intro h
    injection h with h1 h23
    injection h23 with h2 h3
    subst h1; subst h2; subst h3
    simp [mainCore, hcc]
  · intro l hl
    cases b1 <;> cases b2 <;> cases b3 <;> cases sy <;> cases sa <;>
      simp_all [mainCore, hcc]

/-- C7 witness: with identical (empty) previous and latest snapshots the
change detector reports no change anywhere and no matcher call happens. -/
theorem matcher_gated_witness :
    (mainCore true true "y" "a" [] [] [] [] [] [] []
      sampleDecideSkip sampleDecideSkip).matchedLedgers = [] :=
  (matcher_gated true true "y" "a" [] [] [] [] [] [] []
    sampleDecideSkip sampleDecideSkip).1 rfl

/-! ## Ordering-token stripping before save (claim C8) -/

theorem stripSnapshot_seq_none {S : Snapshot} :
    ∀ p ∈ stripSnapshot S, p.2.seq = none := by
  intro p hp
  rcases List.mem_map.mp hp with ⟨q, -, hq⟩
  rw [← hq]
  rfl

theorem stripSnapshot_view (S : Snapshot) :
    (stripSnapshot S).map (fun p => (p.1, p.2.name, p.2.balance, p.2.kind))
      = S.map (fun p => (p.1, p.2.name, p.2.balance, p.2.kind)) := by
  rw [stripSnapshot, List.map_map]
  exact List.map_congr_left (fun p _ => rfl)

/-- C8: the document handed to `save_mapping` at the end of a run is exactly
the in-memory document with the ordering token removed from every record: no
`seq` value survives in any persisted snapshot, and every entry's other
fields, the entry order, and the mapping itself are unchanged. -/
theorem saved_strips_seq (sy sa : Bool) (y a : String)
    (lA lAc lY pA pAc pY : Snapshot) (M : Mapping) (fY fA : String → Decision) :
    (mainCore sy sa y a lA lAc lY pA pAc pY M fY fA).saved
      = remove_seq (mainCore sy sa y a lA lAc lY pA pAc pY M fY fA).document
    ∧ (∀ d : MappingDocument,
        (remove_seq d).mapping = d.mapping
        ∧ (∀ p ∈ (remove_seq d).akahu_accounts, p.2.seq = none)
        ∧ (∀ p ∈ (remove_seq d).actual_accounts, p.2.seq = none)
        ∧ (∀ p ∈ (remove_seq d).ynab_accounts, p.2.seq = none)
        ∧ (remove_seq d).akahu_accounts.map (fun p => (p.1, p.2.name, p.2.balance, p.2.kind))
            = d.akahu_accounts.map (fun p => (p.1, p.2.name, p.2.balance, p.2.kind))
        ∧ (remove_seq d).actual_accounts.map (fun p => (p.1, p.2.name, p.2.balance, p.2.kind))
            = d.actual_accounts.map (fun p => (p.1, p.2.name, p.2.balance, p.2.kind))
        ∧ (remove_seq d).ynab_accounts.map (fun p => (p.1, p.2.name, p.2.balance, p.2.kind))
            = d.ynab_accounts.map (fun p => (p.1, p.2.name, p.2.balance, p.2.kind))) := by
  constructor
  · unfold mainCore
    dsimp only
    split <;> rfl
  · intro d
    exact ⟨rfl, stripSnapshot_seq_none, stripSnapshot_seq_none, stripSnapshot_seq_none,
      stripSnapshot_view _, stripSnapshot_view _, stripSnapshot_view _⟩

/-- C8 witness: in the stripped version of a concrete document, the record of
account `ak1` carries no ordering token. -/
theorem saved_strips_seq_witness :
    (("ak1", stripSeq sampleRecSeqA) : String × AccountRecord).2.seq = none :=
  (((saved_strips_seq true true "y" "a" [] [] [] [] [] [] []
      sampleDecideSkip sampleDecideSkip).2 sampleDoc).2.1)
    ("ak1", stripSeq sampleRecSeqA) (by decide)

/-! ## Source accounts sorted by display name (claim C9) -/

theorem pairwise_stripSnapshot {S : Snapshot} (h : List.Pairwise nameLE S) :
    List.Pairwise nameLE (stripSnapshot S) :=
  List.Pairwise.map _ (fun _ _ hab => hab) h

/-- C9: the source-provider account dictionary returned by merge — and, in
`main`, the one presented to the matcher and the one persisted — is sorted
case-insensitively by display name: iterating it yields accounts in
non-decreasing order of lowercased `name`. -/
theorem source_accounts_sorted (sy sa : Bool) (y a : String)
    (M : Mapping) (lA lAc lY pA pAc pY : Snapshot) (fY fA : String → Decision) :
    List.Pairwise nameLE (merge_and_update_mapping M lA lAc lY pA pAc pY).akahu_accounts
    ∧ List.Pairwise nameLE
        (mainCore sy sa y a lA lAc lY pA pAc pY M fY fA).document.akahu_accounts
    ∧ List.Pairwise nameLE
        (mainCore sy sa y a lA lAc lY pA pAc pY M fY fA).saved.akahu_accounts := by
  have hdoc : (mainCore sy sa y a lA lAc lY pA pAc pY M fY fA).document.akahu_accounts
      = sortByNameCI (sortByNameCI lA) := by
    unfold mainCore
    dsimp only
    split <;> rfl
  have hsaved : (mainCore sy sa y a lA lAc lY pA pAc pY M fY fA).saved.akahu_accounts
      = stripSnapshot (sortByNameCI (sortByNameCI lA)) := by
    unfold mainCore
    dsimp only
    split <;> rfl
  refine ⟨List.sorted_insertionSort nameLE lA, ?_, ?_⟩
  · rw [hdoc]
    exact List.sorted_insertionSort nameLE _
  · rw [hsaved]
    exact pairwise_stripSnapshot (List.sorted_insertionSort nameLE _)

/-! ## Startup sync-flag guard (claim C10) -/

theorem envFlag_eq_true_iff (env : String → Option String) (key : String) :
    envFlag env key = true ↔ env key = some "True" := by
  unfold envFlag
  cases h : env key with
  | none =>
    simp only [Option.getD]
    constructor
    · intro hb
      exact absurd hb (by decide)
    · intro hb
      cases hb
  | some v =>
    simp only [Option.getD]
    rw [beq_iff_eq]
    constructor
    · intro hv
      rw [hv]
    · intro hv
      injection hv

theorem startupChecks_flags_off (env : String → Option String)
    (h1 : env "SYNC_TO_YNAB" ≠ some "True") (h2 : env "SYNC_TO_AB" ≠ some "True") :
    startupChecks env = .error .syncFlagsOff := by
  have f1 : envFlag env "SYNC_TO_YNAB" = false := by
    rw [Bool.eq_false_iff]
    intro hb
    exact h1 ((envFlag_eq_true_iff env "SYNC_TO_YNAB").mp hb)
  have f2 : envFlag env "SYNC_TO_AB" = false := by
    rw [Bool.eq_false_iff]
    intro hb
    exact h2 ((envFlag_eq_true_iff env "SYNC_TO_AB").mp hb)
  simp [startupChecks, f1, f2]

/-- C10: if neither `SYNC_TO_YNAB` nor `SYNC_TO_AB` is the exact string
`"True"`, startup fails with the sync-flag `EnvironmentError` before any
fetch, merge, match or save runs (the program yields no `MainResult`); if at
least one flag is `"True"` and every required credential is present, that
error is not raised and the run proceeds into `main`. -/
theorem sync_flag_guard (env : String → Option String)
    (lA lAc lY pA pAc pY : Snapshot) (M : Mapping) (fY fA : String → Decision) :
    (env "SYNC_TO_YNAB" ≠ some "True" → env "SYNC_TO_AB" ≠ some "True" →
      runProgram env lA lAc lY pA pAc pY M fY fA = .error .syncFlagsOff)
    ∧ ((env "SYNC_TO_YNAB" = some "True" ∨ env "SYNC_TO_AB" = some "True") →
      (∀ k ∈ required_envs, (env k).isSome) →
      runProgram env lA lAc lY pA pAc pY M fY fA
        = .ok (mainCore (envFlag env "SYNC_TO_YNAB") (envFlag env "SYNC_TO_AB")
            ((env "YNAB_BUDGET_ID").getD "") ((env "ACTUAL_SYNC_ID").getD "")
            lA lAc lY pA pAc pY M fY fA)) := by
  constructor
  · intro h1 h2
    unfold runProgram
    rw [startupChecks_flags_off env h1 h2]
  · intro hor hall
    have hflag : (!envFlag env "SYNC_TO_YNAB" && !envFlag env "SYNC_TO_AB") = false := by
      rcases hor with h | h
      · have ht : envFlag env "SYNC_TO_YNAB" = true :=
          (envFlag_eq_true_iff env "SYNC_TO_YNAB").mpr h
        simp [ht]
      · have ht : envFlag env "SYNC_TO_AB" = true :=
          (envFlag_eq_true_iff env "SYNC_TO_AB").mpr h
        simp [ht]
    have hfind : required_envs.find? (fun k => (env k).isNone) = none := by
      rw [List.find?_eq_none]
      intro k hk
      have hs := hall k hk
      simp [Option.isNone, Option.isSome] at hs ⊢
      cases hv : env k with
      | none => rw [hv] at hs; cases hs
      | some v => simp
    unfold runProgram startupChecks
    simp [hflag, hfind]

/-- C10 witness: an environment with no variables set fails the sync-flag
guard, and one with `SYNC_TO_YNAB=True` and all credentials present does
not. -/
theorem sync_flag_guard_witness :
    runProgram sampleEnvOff [] [] [] [] [] [] [] sampleDecideSkip sampleDecideSkip
      = .error .syncFlagsOff
    ∧ runProgram sampleEnvOn [] [] [] [] [] [] [] sampleDecideSkip sampleDecideSkip
      = .ok (mainCore (envFlag sampleEnvOn "SYNC_TO_YNAB") (envFlag sampleEnvOn "SYNC_TO_AB")
          ((sampleEnvOn "YNAB_BUDGET_ID").getD "") ((sampleEnvOn "ACTUAL_SYNC_ID").getD "")
          [] [] [] [] [] [] [] sampleDecideSkip sampleDecideSkip) :=
  ⟨(sync_flag_guard sampleEnvOff [] [] [] [] [] [] [] sampleDecideSkip sampleDecideSkip).1
      (by decide) (by decide),
   (sync_flag_guard sampleEnvOn [] [] [] [] [] [] [] sampleDecideSkip sampleDecideSkip).2
      (Or.inl (by decide)) (by decide)⟩
